import Mathlib

/-!
Shallow embedding of `python/isort/private/isort_runner.py` (rules_isort).

Python strings are modelled as `List Char` (`PyStr`); `configparser` state is
modelled as an association list of sections, each an association list of
options.  Fallible Python code (functions that `raise`) is modelled with
`Except`.  The filesystem, the environment, and the runfiles lookup are
modelled as explicit function arguments.
-/

/-- Python strings: a list of code points. -/
abbrev PyStr := List Char

/-- Evaluate a Lean string literal to the `PyStr` model. -/
def str (s : String) : PyStr := s.data

/-- Python `s.split(",")`: split on every comma; the empty string yields
one empty piece, mirroring `"".split(",") == [""]`. -/
def splitComma : PyStr → List PyStr
  | [] => [[]]
  | c :: rest =>
    if c = ',' then [] :: splitComma rest
    else
      match splitComma rest with
      | [] => [[c]]
      | s :: ss => (c :: s) :: ss

/-- Python `sep.join(pieces)`. -/
def joinWith (sep : PyStr) : List PyStr → PyStr
  | [] => []
  | [x] => x
  | x :: y :: rest => x ++ sep ++ joinWith sep (y :: rest)

/-- Python `s.endswith(suffix)`. -/
def pyEndsWith (s sfx : PyStr) : Bool := sfx.isSuffixOf s

/-- The generator expression on lines 149-153 of `isort_runner.py`, as a list:
`pkg for pkg in sorted(set(src_paths + known_src_paths.split(","))) if pkg`.
`set` followed by `sorted` is the ascending enumeration of the distinct
elements, modelled by `dedup` followed by `insertionSort`; the trailing
`if pkg` keeps only non-empty (truthy) strings. -/
def mergedSrcPathsList (src_paths : List PyStr) (known_src_paths : PyStr) : List PyStr :=
  (List.insertionSort (· ≤ ·) (src_paths ++ splitComma known_src_paths).dedup).filter
    (fun pkg => pkg ≠ [])

/-- The `src_paths` value written by `config.set` on lines 146-154:
the comma-join of `mergedSrcPathsList`. -/
def mergedSrcPathsValue (src_paths : List PyStr) (known_src_paths : PyStr) : PyStr :=
  joinWith (str ",") (mergedSrcPathsList src_paths known_src_paths)

/-- A parsed `configparser.ConfigParser`: sections in file order, each holding
options in file order.  (Interpolation and the `DEFAULT` section of
`configparser` play no role in the wrapped code and are not modelled.) -/
structure Config where
  sections : List (PyStr × List (PyStr × PyStr))
deriving DecidableEq

/-- Python `config.sections()`. -/
def Config.sectionNames (c : Config) : List PyStr := c.sections.map Prod.fst

/-- Find the option list of the first section with the given name. -/
def findSection (sect : PyStr) : List (PyStr × List (PyStr × PyStr)) → Option (List (PyStr × PyStr))
  | [] => none
  | s :: rest => if s.1 == sect then some s.2 else findSection sect rest

/-- Find the value of the first option with the given key. -/
def findValue (key : PyStr) : List (PyStr × PyStr) → Option PyStr
  | [] => none
  | kv :: rest => if kv.1 == key then some kv.2 else findValue key rest

/-- Python `config.get(section, key)` without fallback: `none` when the
section or the option is absent. -/
def Config.get? (c : Config) (sect key : PyStr) : Option PyStr :=
  (findSection sect c.sections).bind (findValue key)

/-- Python `config.add_section(section)`: appends a fresh empty section. -/
def Config.add_section (c : Config) (sect : PyStr) : Config :=
  ⟨c.sections ++ [(sect, [])]⟩

/-- Replace the value of `key` in an option list, or append it. -/
def setKey (key value : PyStr) : List (PyStr × PyStr) → List (PyStr × PyStr)
  | [] => [(key, value)]
  | kv :: rest => if kv.1 == key then (key, value) :: rest else kv :: setKey key value rest

/-- Update every section of the given name (unique in `configparser`). -/
def setSections (sect key value : PyStr) :
    List (PyStr × List (PyStr × PyStr)) → List (PyStr × List (PyStr × PyStr))
  | [] => []
  | s :: rest =>
    if s.1 == sect then (s.1, setKey key value s.2) :: setSections sect key value rest
    else s :: setSections sect key value rest

/-- Python `config.set(section, key, value)`. -/
def Config.set (c : Config) (sect key value : PyStr) : Config :=
  ⟨setSections sect key value c.sections⟩

/-- Errors raised by `generate_config_with_projects`. -/
inductive GenError
  /-- Line 136: `NotImplementedError("There is no writer for tomllib")`. -/
  | notImplementedToml
  /-- Line 161: `ValueError(f"Unexpected isort config file '{existing}'.")`. -/
  | unexpectedConfig
deriving DecidableEq

/-- The suffix/section dispatch table on lines 125-130 of `isort_runner.py`,
in source order. -/
def cfg_pairs : List (PyStr × PyStr) :=
  [(str ".isort.cfg", str "settings"),
   (str ".cfg", str "isort"),
   (str ".ini", str "isort"),
   (str "pyproject.toml", str "tool.isort")]

/-- Lines 115-161 of `isort_runner.py`: `generate_config_with_projects`,
at the level of the parsed config.  `name` is `existing.name`, `config` is
the result of `config.read(str(existing))`, and the returned config is the
one handed to `config.write`.  The `for`/`continue` loop keeps the first
pair whose suffix matches, mirrored by `List.find?`. -/
def generate_config_with_projects (name : PyStr) (config : Config) (src_paths : List PyStr) :
    Except GenError Config :=
  match cfg_pairs.find? (fun p => pyEndsWith name p.1) with
  | none => .error .unexpectedConfig
  | some (sfx, sect) =>
    if pyEndsWith sfx (str ".toml") then .error .notImplementedToml
    else
      let config1 := if (Config.sectionNames config).contains sect then config
                     else config.add_section sect
      let known_src_paths := (config1.get? sect (str "src_paths")).getD []
      .ok (config1.set sect (str "src_paths") (mergedSrcPathsValue src_paths known_src_paths))

/-- Write one file in a filesystem modelled as a map from path to contents. -/
def writeFileAt (fs : PyStr → Option PyStr) (path content : PyStr) : PyStr → Option PyStr :=
  fun p => if p = path then some content else fs p

/-- The file-level view of `generate_config_with_projects`: read and parse
the existing config (the `configparser` text parser and serialiser are the
parameters `parseCfg` and `writeCfg`), then write the merged config to
`outputPath` and nowhere else (lines 156-157: `with output.open("w") ...:
config.write(fhd)`).  On error nothing is written. -/
def generate_config_fs (parseCfg : Option PyStr → Config) (writeCfg : Config → PyStr)
    (fs : PyStr → Option PyStr) (existingPath outputPath name : PyStr)
    (src_paths : List PyStr) : Except GenError (PyStr → Option PyStr) :=
  match generate_config_with_projects name (parseCfg (fs existingPath)) src_paths with
  | .error e => .error e
  | .ok cfgOut => .ok (writeFileAt fs outputPath (writeCfg cfgOut))

/-- A concrete config parser (used to evaluate `generate_config_fs` on
concrete inputs). -/
def cParse : Option PyStr → Config := fun _ => ⟨[]⟩

/-- A concrete config serialiser (used to evaluate `generate_config_fs` on
concrete inputs). -/
def cWrite : Config → PyStr := fun _ => []

/-- A concrete filesystem (used to evaluate `generate_config_fs` on
concrete inputs). -/
def cFS : PyStr → Option PyStr := fun _ => some (str "x")

/-- Errors raised by `_rlocation` and `locate_first_party_src_paths`. -/
inductive RunnerError
  /-- Line 28: `FileNotFoundError(f"Failed to find runfile: ...")`. -/
  | runfileNotFound (rlocationpath : PyStr)
  /-- Line 31: `FileNotFoundError(f"Runfile does not exist: ...")`. -/
  | runfileMissingOnDisk (rlocationpath path : PyStr)
  /-- Line 110: `EnvironmentError("Unable to locate runfiles directory.")`. -/
  | noRunfilesDir
deriving DecidableEq

/-- Lines 16-32 of `isort_runner.py`: `_rlocation`.  `lookup` models
`runfiles.Rlocation` (`none` for Python `None`); `fileExists` models
`Path(runfile).exists()`.  Python `if not runfile` is falsy for both
`None` and the empty string. -/
def rlocation (lookup : PyStr → Option PyStr) (fileExists : PyStr → Bool)
    (rlocationpath : PyStr) : Except RunnerError PyStr :=
  match lookup rlocationpath with
  | none => .error (.runfileNotFound rlocationpath)
  | some runfile =>
    if runfile = [] then .error (.runfileNotFound rlocationpath)
    else if fileExists runfile then .ok runfile
    else .error (.runfileMissingOnDisk rlocationpath runfile)

/-- Lines 94-112 of `isort_runner.py`: `locate_first_party_src_paths`.
`env` models `os.environ` (`none` when the variable is unset; membership
tests are true even for an empty value); `joinDir` models
`str(runfiles_dir / path)`, the external `pathlib` join. -/
def locate_first_party_src_paths (env : PyStr → Option PyStr)
    (joinDir : PyStr → PyStr → PyStr) (imports : List PyStr) :
    Except RunnerError (List PyStr) :=
  match env (str "PY_VENV_RUNFILES_DIR") with
  | some d => .ok (imports.map (joinDir d))
  | none =>
    match env (str "RUNFILES_DIR") with
    | some d => .ok (imports.map (joinDir d))
    | none => .error .noRunfilesDir

/-- Python `s.replace(a, b)` for non-empty `a`, with structural fuel: scan
left to right, replace each non-overlapping occurrence of `a` and continue
after the replaced text.  One unit of fuel is spent per character position
examined, so any `fuel ≥ s.length` computes the full replacement; the
`0, s => s` arm is unreachable then. -/
def pyReplaceGo (a b : PyStr) : Nat → PyStr → PyStr
  | _, [] => []
  | 0, s => s
  | fuel + 1, c :: rest =>
    if !a.isEmpty && a.isPrefixOf (c :: rest) then
      b ++ pyReplaceGo a b fuel (List.drop (a.length - 1) rest)
    else c :: pyReplaceGo a b fuel rest

/-- Python `s.replace(a, b)` (for non-empty pattern `a`). -/
def pyReplace (s a b : PyStr) : PyStr := pyReplaceGo a b s.length s

/-- Lines 211-215 of `isort_runner.py`: sanitize the captured subprocess
output.  `runfiles_dir` is `os.environ["RUNFILES_DIR"]` when set; `cwd` is
`str(Path.cwd())`. -/
def sanitize_output (runfiles_dir : Option PyStr) (cwd out : PyStr) : PyStr :=
  let o1 := match runfiles_dir with
    | some rd => pyReplace out rd (str "//")
    | none => out
  pyReplace o1 cwd (str "/")

/-- The observable outcome of `main` after the subprocess returns. -/
structure MainResult where
  /-- The wrapper process exit code (`sys.exit(result.returncode)` on
  failure, normal return on success). -/
  exitCode : Int
  /-- What is printed to stderr (`none` when nothing is printed). -/
  stderrOut : Option PyStr
  /-- The contents written to the marker file (`none` when not written). -/
  markerContent : Option PyStr
deriving DecidableEq

/-- Lines 210-223 of `isort_runner.py`: the tail of `main`.  On a non-zero
`returncode` the sanitized output is printed to stderr and the same code is
re-raised via `sys.exit`; on a zero code the wrapper returns normally
(process exit 0) and, when a marker path was requested (`if args.marker:`),
writes the empty marker file (`args.marker.write_bytes(b"")`). -/
def main_after_subprocess (runfiles_dir : Option PyStr) (cwd : PyStr)
    (markerRequested : Bool) (returncode : Int) (out : PyStr) : MainResult :=
  if returncode ≠ 0 then
    { exitCode := returncode,
      stderrOut := some (sanitize_output runfiles_dir cwd out),
      markerContent := none }
  else
    { exitCode := 0,
      stderrOut := none,
      markerContent := if markerRequested then some [] else none }

/-! ## Helper lemmas about the merged `src_paths` list -/

lemma mergedSrcPathsList_nodup (src_paths : List PyStr) (known_src_paths : PyStr) :
    (mergedSrcPathsList src_paths known_src_paths).Nodup :=
  List.Nodup.filter _
    ((List.perm_insertionSort _ _).nodup_iff.mpr (List.nodup_dedup _))

lemma mem_mergedSrcPathsList {p : PyStr} (src_paths : List PyStr) (known_src_paths : PyStr)
    (hp : p ≠ []) (hmem : p ∈ src_paths ++ splitComma known_src_paths) :
    p ∈ mergedSrcPathsList src_paths known_src_paths := by
  unfold mergedSrcPathsList
  refine List.mem_filter.mpr ⟨?_, by simpa using hp⟩
  exact (List.perm_insertionSort _ _).mem_iff.mpr (List.mem_dedup.mpr hmem)

lemma count_beq_eq_count_deceq (p : PyStr) (l : List PyStr) :
    @List.count PyStr List.instBEq p l = @List.count PyStr instBEqOfDecidableEq p l := by
  induction l with
  | nil => rfl
  | cons b t ih =>
    rw [show @List.count PyStr List.instBEq p (b :: t) =
          @List.count PyStr List.instBEq p t + if b == p then 1 else 0 from List.count_cons ..,
        show @List.count PyStr instBEqOfDecidableEq p (b :: t) =
          @List.count PyStr instBEqOfDecidableEq p t + if b = p then 1 else 0 by
            rw [@List.count_cons PyStr instBEqOfDecidableEq]; simp,
        ih]
    by_cases h : b = p <;> simp [h]

/-- C1: for a supported config, merging is idempotent and deduplicating: a
(non-empty) path that already occurs in the file's `src_paths` entry, or that
is merged twice, occurs exactly once among the entries whose comma-join is
the written `src_paths` value. -/
theorem merged_src_paths_count_one (src_paths : List PyStr) (known_src_paths p : PyStr)
    (hp : p ≠ []) (hmem : p ∈ src_paths ++ splitComma known_src_paths) :
    (mergedSrcPathsList src_paths known_src_paths).count p = 1 := by
  rw [count_beq_eq_count_deceq]
  exact List.count_eq_one_of_mem (mergedSrcPathsList_nodup _ _)
    (mem_mergedSrcPathsList _ _ hp hmem)

/-- Witness for C1: merging `["a", "a"]` into a file whose entry is `"a,b"`
yields exactly one occurrence of `"a"`. -/
theorem merged_src_paths_count_one_witness :
    (str "a" ≠ [] ∧ str "a" ∈ [str "a", str "a"] ++ splitComma (str "a,b")) ∧
    (mergedSrcPathsList [str "a", str "a"] (str "a,b")).count (str "a") = 1 :=
  ⟨⟨by decide, by decide⟩,
   merged_src_paths_count_one [str "a", str "a"] (str "a,b") (str "a") (by decide) (by decide)⟩

/-- C2: the entries whose comma-join is the written `src_paths` value are in
sorted (lexicographic, as Python `sorted`) order, for every input list of
source paths and every existing entry. -/
theorem merged_src_paths_sorted (src_paths : List PyStr) (known_src_paths : PyStr) :
    List.Sorted (· ≤ ·) (mergedSrcPathsList src_paths known_src_paths) :=
  List.Pairwise.sublist (List.filter_sublist _) (List.sorted_insertionSort _ _)

/-- C9: the written `src_paths` value contains no empty entry: the empty
string occurs zero times among the joined entries, whatever the input list
(even one containing empty strings) and the existing entry (even the empty
fallback, whose split is one empty piece). -/
theorem merged_src_paths_no_empty (src_paths : List PyStr) (known_src_paths : PyStr) :
    (mergedSrcPathsList src_paths known_src_paths).count [] = 0 := by
  have h : ∀ l : List PyStr, ([] : PyStr) ∉ l → l.count [] = 0 := by
    intro l
    induction l with
    | nil => intro _; rfl
    | cons b t ih =>
      intro hne
      rw [show @List.count PyStr List.instBEq [] (b :: t) =
            @List.count PyStr List.instBEq [] t + if b == [] then 1 else 0 from List.count_cons ..]
      have hb : b ≠ [] := fun hb => hne (hb ▸ List.mem_cons_self b t)
      have ht : ([] : PyStr) ∉ t := fun hm => hne (List.mem_cons_of_mem _ hm)
      simp [ih ht, hb]
  apply h
  intro hmem
  have hq := (List.mem_filter.mp hmem).2
  simp at hq

/-! ## The suffix dispatch of `generate_config_with_projects` -/

lemma find_cfg_pairs (name : PyStr)
    (h1 : pyEndsWith name (str ".isort.cfg") = false)
    (h2 : pyEndsWith name (str ".cfg") = false)
    (h3 : pyEndsWith name (str ".ini") = false) :
    cfg_pairs.find? (fun p => pyEndsWith name p.1) =
      if pyEndsWith name (str "pyproject.toml") then
        some (str "pyproject.toml", str "tool.isort")
      else none := by
  simp [cfg_pairs, List.find?, h1, h2, h3]
  cases h4 : pyEndsWith name (str "pyproject.toml") <;> simp [h4]

lemma generate_unsupported (name : PyStr) (config : Config) (src_paths : List PyStr)
    (h1 : pyEndsWith name (str ".isort.cfg") = false)
    (h2 : pyEndsWith name (str ".cfg") = false)
    (h3 : pyEndsWith name (str ".ini") = false) :
    ∃ e, generate_config_with_projects name config src_paths = .error e := by
  unfold generate_config_with_projects
  rw [find_cfg_pairs name h1 h2 h3]
  cases h4 : pyEndsWith name (str "pyproject.toml") with
  | false => exact ⟨.unexpectedConfig, by simp⟩
  | true =>
    refine ⟨.notImplementedToml, ?_⟩
    simp only [if_pos rfl]
    have htoml : pyEndsWith (str "pyproject.toml") (str ".toml") = true := by decide
    simp [htoml]

/-! ## Lemmas about the `Config` operations -/

lemma findValue_setKey_self (key value : PyStr) (kvs : List (PyStr × PyStr)) :
    findValue key (setKey key value kvs) = some value := by
  induction kvs with
  | nil => simp [setKey, findValue]
  | cons kv rest ih =>
    by_cases h : kv.1 = key
    · simp [setKey, findValue, h]
    · have hb : (kv.1 == key) = false := by simp [h]
      simp [setKey, findValue, hb, ih]

lemma get?_set_self (c : Config) (sect key value : PyStr) (h : sect ∈ c.sectionNames) :
    (c.set sect key value).get? sect key = some value := by
  obtain ⟨l⟩ := c
  simp only [Config.sectionNames] at h
  induction l with
  | nil => simp at h
  | cons s rest ih =>
    by_cases hs : s.1 = sect
    · have hb : (s.1 == sect) = true := by simp [hs]
      simp [Config.set, Config.get?, setSections, findSection, hb, findValue_setKey_self]
    · have hb : (s.1 == sect) = false := by simp [hs]
      have hmem : sect ∈ rest.map Prod.fst := by
        rcases List.mem_map.mp h with ⟨t, ht, rfl⟩
        rcases List.mem_cons.mp ht with rfl | htr
        · exact absurd rfl hs
        · exact List.mem_map.mpr ⟨t, htr, rfl⟩
      have := ih hmem
      simp only [Config.set, Config.get?] at this
      simp [Config.set, Config.get?, setSections, findSection, hb, this]

lemma get?_set_other (c : Config) (sect sect' key key' value : PyStr) (hne : sect' ≠ sect) :
    (c.set sect key value).get? sect' key' = c.get? sect' key' := by
  obtain ⟨l⟩ := c
  induction l with
  | nil => rfl
  | cons s rest ih =>
    have ih' := ih
    simp only [Config.set, Config.get?] at ih' ⊢
    by_cases hs : s.1 = sect
    · have hb : (s.1 == sect) = true := by simp [hs]
      have hb' : (s.1 == sect') = false := by
        simp only [beq_eq_false_iff_ne, ne_eq]
        exact fun hq => hne ((hq.symm.trans hs).symm ▸ rfl)
      simp [setSections, findSection, hb, hb', ih']
    · have hb : (s.1 == sect) = false := by simp [hs]
      by_cases hs' : s.1 = sect'
      · have hb' : (s.1 == sect') = true := by simp [hs']
        simp [setSections, findSection, hb, hb']
      · have hb' : (s.1 == sect') = false := by simp [hs']
        simp [setSections, findSection, hb, hb', ih']

lemma get?_add_section_other (c : Config) (sect sect' key : PyStr) (hne : sect' ≠ sect) :
    (c.add_section sect).get? sect' key = c.get? sect' key := by
  obtain ⟨l⟩ := c
  induction l with
  | nil =>
    have hb : (sect == sect') = false := by simp; exact fun h => hne h.symm
    simp [Config.add_section, Config.get?, findSection, hb]
  | cons s rest ih =>
    have ih' := ih
    simp only [Config.add_section, Config.get?] at ih' ⊢
    by_cases hs' : s.1 = sect'
    · have hb' : (s.1 == sect') = true := by simp [hs']
      simp [findSection, hb']
    · have hb' : (s.1 == sect') = false := by simp [hs']
      simp [findSection, hb', ih']

lemma get?_none_of_not_mem (c : Config) (sect key : PyStr) (h : sect ∉ c.sectionNames) :
    c.get? sect key = none := by
  obtain ⟨l⟩ := c
  simp only [Config.sectionNames] at h
  induction l with
  | nil => rfl
  | cons s rest ih =>
    have hs : s.1 ≠ sect := fun hq => h (hq ▸ List.mem_map.mpr ⟨s, List.mem_cons_self s rest, rfl⟩)
    have hb : (s.1 == sect) = false := by simp [hs]
    have ih' := ih (fun hm => h (by
      rcases List.mem_map.mp hm with ⟨t, ht, rfl⟩
      exact List.mem_map.mpr ⟨t, List.mem_cons_of_mem _ ht, rfl⟩))
    simp only [Config.get?] at ih' ⊢
    simp [findSection, hb, ih']

lemma get?_add_section_self (c : Config) (sect key : PyStr) (h : sect ∉ c.sectionNames) :
    (c.add_section sect).get? sect key = none := by
  obtain ⟨l⟩ := c
  simp only [Config.sectionNames] at h
  induction l with
  | nil => simp [Config.add_section, Config.get?, findSection, findValue]
  | cons s rest ih =>
    have hs : s.1 ≠ sect := fun hq => h (hq ▸ List.mem_map.mpr ⟨s, List.mem_cons_self s rest, rfl⟩)
    have hb : (s.1 == sect) = false := by simp [hs]
    have ih' := ih (fun hm => h (by
      rcases List.mem_map.mp hm with ⟨t, ht, rfl⟩
      exact List.mem_map.mpr ⟨t, List.mem_cons_of_mem _ ht, rfl⟩))
    simp only [Config.add_section, Config.get?] at ih' ⊢
    simp [findSection, hb, ih']

lemma mem_sectionNames_add_section (c : Config) (sect : PyStr) :
    sect ∈ (c.add_section sect).sectionNames := by
  simp [Config.add_section, Config.sectionNames]

/-- C3: a settings file whose name has an unsupported config suffix (it ends
with none of `.isort.cfg`, `.cfg`, `.ini` -- which covers any TOML file such
as `pyproject.toml`) always makes `generate_config_with_projects` raise a
format error (`NotImplementedError` for the matched `pyproject.toml` pair,
`ValueError` otherwise); it never reaches the config write and never returns
normally. -/
theorem unsupported_config_raises (name : PyStr) (config : Config) (src_paths : List PyStr)
    (h1 : pyEndsWith name (str ".isort.cfg") = false)
    (h2 : pyEndsWith name (str ".cfg") = false)
    (h3 : pyEndsWith name (str ".ini") = false) :
    ∃ e, generate_config_with_projects name config src_paths = .error e :=
  generate_unsupported name config src_paths h1 h2 h3

/-- Witness for C3 at the settings file `pyproject.toml`. -/
theorem unsupported_config_raises_witness :
    (pyEndsWith (str "pyproject.toml") (str ".isort.cfg") = false ∧
     pyEndsWith (str "pyproject.toml") (str ".cfg") = false ∧
     pyEndsWith (str "pyproject.toml") (str ".ini") = false) ∧
    ∃ e, generate_config_with_projects (str "pyproject.toml") ⟨[]⟩ [] = .error e :=
  ⟨⟨by decide, by decide, by decide⟩,
   unsupported_config_raises (str "pyproject.toml") ⟨[]⟩ []
     (by decide) (by decide) (by decide)⟩

/-- C10: a settings file whose name ends with `.isort.cfg` (and hence also
with the generic `.cfg`) is dispatched to the first matching pair of
`cfg_pairs`, so its `src_paths` are merged into the `settings` section --
the existing entry is read from `settings`, the merged value is written to
`settings`, and the `isort` section is left unchanged. -/
theorem isort_cfg_uses_settings_section (name : PyStr) (config : Config) (src_paths : List PyStr)
    (h : pyEndsWith name (str ".isort.cfg") = true) :
    pyEndsWith name (str ".cfg") = true ∧
    cfg_pairs.find? (fun p => pyEndsWith name p.1) = some (str ".isort.cfg", str "settings") ∧
    ∃ out, generate_config_with_projects name config src_paths = .ok out ∧
      out.get? (str "settings") (str "src_paths") =
        some (mergedSrcPathsValue src_paths
          ((config.get? (str "settings") (str "src_paths")).getD [])) ∧
      ∀ key, out.get? (str "isort") key = config.get? (str "isort") key := by
  have hcfg : pyEndsWith name (str ".cfg") = true := by
    unfold pyEndsWith at h ⊢
    rw [List.isSuffixOf_iff_suffix] at h ⊢
    exact List.IsSuffix.trans (by decide) h
  have hfind : cfg_pairs.find? (fun p => pyEndsWith name p.1) =
      some (str ".isort.cfg", str "settings") := by
    simp [cfg_pairs, List.find?, h]
  have htoml : pyEndsWith (str ".isort.cfg") (str ".toml") = false := by decide
  refine ⟨hcfg, hfind, ?_⟩
  set cfg1 := if (Config.sectionNames config).contains (str "settings") then config
              else config.add_section (str "settings") with hcfg1
  set known := (cfg1.get? (str "settings") (str "src_paths")).getD [] with hknown
  have hgen : generate_config_with_projects name config src_paths =
      .ok (cfg1.set (str "settings") (str "src_paths")
            (mergedSrcPathsValue src_paths known)) := by
    unfold generate_config_with_projects
    rw [hfind]
    simp only [htoml, Bool.false_eq_true, if_false]
  refine ⟨_, hgen, ?_, ?_⟩
  · have hne : known = (config.get? (str "settings") (str "src_paths")).getD [] := by
      by_cases hset : str "settings" ∈ config.sectionNames
      · have hc : (Config.sectionNames config).contains (str "settings") = true := by
          simpa using hset
        rw [hknown, hcfg1, if_pos hc]
      · rw [hknown, hcfg1, if_neg (by simpa using hset),
            get?_add_section_self config _ _ hset, get?_none_of_not_mem config _ _ hset]
    rw [← hne]
    apply get?_set_self
    by_cases hset : str "settings" ∈ config.sectionNames
    · have hc : (Config.sectionNames config).contains (str "settings") = true := by
        simpa using hset
      rw [hcfg1, if_pos hc]; exact hset
    · rw [hcfg1, if_neg (by simpa using hset)]
      exact mem_sectionNames_add_section config _
  · intro key
    rw [get?_set_other _ _ _ _ _ _ (by decide)]
    by_cases hset : str "settings" ∈ config.sectionNames
    · have hc : (Config.sectionNames config).contains (str "settings") = true := by
        simpa using hset
      rw [hcfg1, if_pos hc]
    · rw [hcfg1, if_neg (by simpa using hset)]
      exact get?_add_section_other config _ _ _ (by decide)

/-- Witness for C10 at the settings file `foo.isort.cfg` with an empty
config and one source path. -/
theorem isort_cfg_uses_settings_section_witness :
    pyEndsWith (str "foo.isort.cfg") (str ".isort.cfg") = true ∧
    (pyEndsWith (str "foo.isort.cfg") (str ".cfg") = true ∧
     cfg_pairs.find? (fun p => pyEndsWith (str "foo.isort.cfg") p.1) =
       some (str ".isort.cfg", str "settings") ∧
     ∃ out, generate_config_with_projects (str "foo.isort.cfg") ⟨[]⟩ [str "a"] = .ok out ∧
       out.get? (str "settings") (str "src_paths") =
         some (mergedSrcPathsValue [str "a"]
           (((⟨[]⟩ : Config).get? (str "settings") (str "src_paths")).getD [])) ∧
       ∀ key, out.get? (str "isort") key = (⟨[]⟩ : Config).get? (str "isort") key) :=
  ⟨by decide,
   isort_cfg_uses_settings_section (str "foo.isort.cfg") ⟨[]⟩ [str "a"] (by decide)⟩

/-- C8: `generate_config_with_projects` writes only to the output location:
whenever the file-level run succeeds, every path other than `outputPath`
(in particular the existing settings file, which lives outside the fresh
temporary directory that `main` chooses as the output) has the same contents
afterwards as before; on error nothing is written at all. -/
theorem generate_config_fs_frame (parseCfg : Option PyStr → Config) (writeCfg : Config → PyStr)
    (fs : PyStr → Option PyStr) (existingPath outputPath name : PyStr)
    (src_paths : List PyStr) (fs' : PyStr → Option PyStr)
    (h : generate_config_fs parseCfg writeCfg fs existingPath outputPath name src_paths = .ok fs')
    (p : PyStr) (hp : p ≠ outputPath) : fs' p = fs p := by
  unfold generate_config_fs at h
  cases hg : generate_config_with_projects name (parseCfg (fs existingPath)) src_paths with
  | error e => rw [hg] at h; cases h
  | ok cfgOut =>
    rw [hg] at h
    cases h
    unfold writeFileAt
    rw [if_neg hp]

/-- Witness for C8: a concrete successful run leaves the existing settings
file untouched. -/
theorem generate_config_fs_frame_witness :
    ∃ fs', generate_config_fs cParse cWrite cFS (str "/w/.isort.cfg") (str "/t/.isort.cfg")
        (str ".isort.cfg") [] = .ok fs' ∧
      (str "/w/.isort.cfg" ≠ str "/t/.isort.cfg") ∧
      fs' (str "/w/.isort.cfg") = cFS (str "/w/.isort.cfg") :=
  ⟨_, rfl, by decide,
   generate_config_fs_frame cParse cWrite cFS (str "/w/.isort.cfg") (str "/t/.isort.cfg")
     (str ".isort.cfg") [] _ rfl (str "/w/.isort.cfg") (by decide)⟩

/-- C5: the wrapper terminates with exactly the subprocess return code: a
non-zero code is re-raised unchanged via `sys.exit`, and a zero code makes
`main` return normally, exiting with zero. -/
theorem exit_code_propagated (runfiles_dir : Option PyStr) (cwd : PyStr)
    (markerRequested : Bool) (returncode : Int) (out : PyStr) :
    (main_after_subprocess runfiles_dir cwd markerRequested returncode out).exitCode =
      returncode := by
  by_cases h : returncode = 0
  · simp [main_after_subprocess, h]
  · simp [main_after_subprocess, h]

/-- C7: whenever the subprocess exits with code zero and a marker output
path was requested (`if args.marker:`), the marker file is written with
empty contents (`write_bytes(b"")`), and the wrapper exits zero. -/
theorem marker_empty_on_success (runfiles_dir : Option PyStr) (cwd out : PyStr) :
    (main_after_subprocess runfiles_dir cwd true 0 out).markerContent = some [] ∧
    (main_after_subprocess runfiles_dir cwd true 0 out).exitCode = 0 := by
  constructor <;> simp [main_after_subprocess]

/-- C6: each of the three error conditions aborts immediately with its
descriptive failure and is not recovered from: a runfile lookup returning
no entry (or the falsy empty string) raises `Failed to find runfile`; a
lookup whose path does not exist raises `Runfile does not exist`; an
environment with neither `PY_VENV_RUNFILES_DIR` nor `RUNFILES_DIR` raises
`Unable to locate runfiles directory`; and an unsupported settings-file
format raises a format error. -/
theorem error_paths_fail_fast :
    (∀ (lookup : PyStr → Option PyStr) (fileExists : PyStr → Bool) (rlocationpath : PyStr),
      (lookup rlocationpath = none ∨ lookup rlocationpath = some []) →
      rlocation lookup fileExists rlocationpath = .error (.runfileNotFound rlocationpath)) ∧
    (∀ (lookup : PyStr → Option PyStr) (fileExists : PyStr → Bool) (rlocationpath runfile : PyStr),
      lookup rlocationpath = some runfile → runfile ≠ [] → fileExists runfile = false →
      rlocation lookup fileExists rlocationpath =
        .error (.runfileMissingOnDisk rlocationpath runfile)) ∧
    (∀ (env : PyStr → Option PyStr) (joinDir : PyStr → PyStr → PyStr) (imports : List PyStr),
      env (str "PY_VENV_RUNFILES_DIR") = none → env (str "RUNFILES_DIR") = none →
      locate_first_party_src_paths env joinDir imports = .error .noRunfilesDir) ∧
    (∀ (name : PyStr) (config : Config) (src_paths : List PyStr),
      pyEndsWith name (str ".isort.cfg") = false → pyEndsWith name (str ".cfg") = false →
      pyEndsWith name (str ".ini") = false →
      ∃ e, generate_config_with_projects name config src_paths = .error e) := by
  refine ⟨?_, ?_, ?_, ?_⟩
  · intro lookup fileExists rl h
    rcases h with h | h <;> simp [rlocation, h]
  · intro lookup fileExists rl runfile h hne hex
    simp [rlocation, h, hne, hex]
  · intro env joinDir imports h1 h2
    simp [locate_first_party_src_paths, h1, h2]
  · intro name config src_paths h1 h2 h3
    exact generate_unsupported name config src_paths h1 h2 h3

/-- Witness for C6: each error condition evaluated at a concrete input. -/
theorem error_paths_fail_fast_witness :
    rlocation (fun _ => none) (fun _ => true) (str "k") =
      .error (.runfileNotFound (str "k")) ∧
    rlocation (fun _ => some (str "/f")) (fun _ => false) (str "k") =
      .error (.runfileMissingOnDisk (str "k") (str "/f")) ∧
    locate_first_party_src_paths (fun _ => none) (fun d p => d ++ str "/" ++ p) [str "a"] =
      .error .noRunfilesDir ∧
    (∃ e, generate_config_with_projects (str "pyproject.toml") ⟨[]⟩ [] = .error e) :=
  ⟨error_paths_fail_fast.1 (fun _ => none) (fun _ => true) (str "k") (Or.inl rfl),
   error_paths_fail_fast.2.1 (fun _ => some (str "/f")) (fun _ => false) (str "k") (str "/f")
     rfl (by decide) rfl,
   error_paths_fail_fast.2.2.1 (fun _ => none) (fun d p => d ++ str "/" ++ p) [str "a"] rfl rfl,
   error_paths_fail_fast.2.2.2 (str "pyproject.toml") ⟨[]⟩ []
     (by decide) (by decide) (by decide)⟩

/-! ## Decomposition of Python `str.replace` and the output sanitizer -/

lemma joinWith_cons_cons (sep : PyStr) (c : Char) (z : PyStr) (zs : List PyStr) :
    joinWith sep ((c :: z) :: zs) = c :: joinWith sep (z :: zs) := by
  cases zs <;> simp [joinWith]

lemma joinWith_nil_cons (sep : PyStr) (z : PyStr) (zs : List PyStr) :
    joinWith sep ([] :: z :: zs) = sep ++ joinWith sep (z :: zs) := by
  simp [joinWith]

lemma head_prefix_of_joinWith (sep z : PyStr) (zs : List PyStr) :
    z <+: joinWith sep (z :: zs) := by
  cases zs with
  | nil => simp [joinWith]
  | cons w ws =>
    refine ⟨sep ++ joinWith sep (w :: ws), ?_⟩
    simp [joinWith]

/-- Python `s.replace(a, b)` (non-empty `a`) decomposes its input into
occurrence-free segments: `s` is the `a`-join of segments none of which
contains `a`, and the result is the `b`-join of the very same segments. -/
lemma pyReplaceGo_decomposition (a b : PyStr) (ha : a ≠ []) :
    ∀ (fuel : Nat) (s : PyStr), s.length ≤ fuel →
      ∃ z zs, s = joinWith a (z :: zs) ∧ (∀ t ∈ z :: zs, ¬ a <:+: t) ∧
        pyReplaceGo a b fuel s = joinWith b (z :: zs) := by
  have hinf_nil : ¬ a <:+: ([] : PyStr) := fun hinf => ha (List.sublist_nil.mp hinf.sublist)
  intro fuel
  induction fuel with
  | zero =>
    intro s hs
    have hnil : s = [] := List.length_eq_zero.mp (Nat.le_zero.mp hs)
    subst hnil
    refine ⟨[], [], by simp [joinWith], ?_, by simp [pyReplaceGo, joinWith]⟩
    intro t ht
    rw [List.mem_singleton.mp ht]
    exact hinf_nil
  | succ fuel ih =>
    intro s hs
    cases s with
    | nil =>
      refine ⟨[], [], by simp [joinWith], ?_, by simp [pyReplaceGo, joinWith]⟩
      intro t ht
      rw [List.mem_singleton.mp ht]
      exact hinf_nil
    | cons c rest =>
      by_cases hcond : (!a.isEmpty && a.isPrefixOf (c :: rest)) = true
      · have hpre : a <+: c :: rest :=
          List.isPrefixOf_iff_prefix.mp ((Bool.and_eq_true _ _).mp hcond).2
        obtain ⟨t, ht⟩ := hpre
        have hdrop : List.drop (a.length - 1) rest = t := by
          cases a with
          | nil => exact absurd rfl ha
          | cons a0 a1 =>
            have h2 : a1 ++ t = rest := by
              have hx := ht
              rw [List.cons_append] at hx
              exact (List.cons.injEq .. ▸ hx : _ ∧ _).2
            rw [← h2]
            simp [List.drop_left]
        have hlen : t.length ≤ fuel := by
          have hlen1 : (c :: rest).length = a.length + t.length := by rw [← ht]; simp
          have halen : 1 ≤ a.length := by
            cases a with
            | nil => exact absurd rfl ha
            | cons a0 a1 => simp
          simp only [List.length_cons] at hlen1 hs
          omega
        obtain ⟨z, zs, h1, h2, h3⟩ := ih t hlen
        refine ⟨[], z :: zs, ?_, ?_, ?_⟩
        · rw [joinWith_nil_cons, ← h1, ht]
        · intro t' ht'
          rcases List.mem_cons.mp ht' with rfl | hmem
          · exact hinf_nil
          · exact h2 t' hmem
        · rw [show pyReplaceGo a b (fuel + 1) (c :: rest) =
                b ++ pyReplaceGo a b fuel (List.drop (a.length - 1) rest) by
                  simp [pyReplaceGo, hcond],
              hdrop, h3, joinWith_nil_cons]
      · have hnpre : ¬ a <+: (c :: rest) := by
          intro hp
          apply hcond
          have hpb : a.isPrefixOf (c :: rest) = true := List.isPrefixOf_iff_prefix.mpr hp
          have hne : (!a.isEmpty) = true := by
            cases a with
            | nil => exact absurd rfl ha
            | cons a0 a1 => rfl
          simp [hpb, hne]
        have hrest : rest.length ≤ fuel := by
          simp only [List.length_cons] at hs
          omega
        obtain ⟨z, zs, h1, h2, h3⟩ := ih rest hrest
        refine ⟨c :: z, zs, ?_, ?_, ?_⟩
        · rw [joinWith_cons_cons, ← h1]
        · intro t' ht'
          rcases List.mem_cons.mp ht' with rfl | hmem
          · intro hinf
            rcases List.infix_cons_iff.mp hinf with hp | hinf'
            · have hz : z <+: rest := h1.symm ▸ head_prefix_of_joinWith a z zs
              obtain ⟨u, hu⟩ := hz
              exact hnpre (hp.trans ⟨u, by simp [List.cons_append, hu]⟩)
            · exact h2 z (List.mem_cons_self z zs) hinf'
          · exact h2 t' (List.mem_cons_of_mem z hmem)
        · rw [show pyReplaceGo a b (fuel + 1) (c :: rest) = c :: pyReplaceGo a b fuel rest by
                simp [pyReplaceGo, hcond],
              h3, joinWith_cons_cons]

lemma pyReplace_decomposition (a b s : PyStr) (ha : a ≠ []) :
    ∃ z zs, s = joinWith a (z :: zs) ∧ (∀ t ∈ z :: zs, ¬ a <:+: t) ∧
      pyReplace s a b = joinWith b (z :: zs) :=
  pyReplaceGo_decomposition a b ha s.length s (Nat.le_refl _)

/-- C4 (amended): on a non-zero subprocess exit the relayed output is the
captured output with every left-to-right non-overlapping occurrence of the
`RUNFILES_DIR` value replaced by `//` and then every occurrence of the
working directory replaced by `/`: the captured output splits into
`RUNFILES_DIR`-free segments joined by `RUNFILES_DIR`, the intermediate
string joins the same segments with `//` and splits likewise into
`cwd`-free segments, and the relayed string joins those with `/`.  Outside
the spliced replacement markers the relayed output therefore contains
neither path; an occurrence can survive only by spanning a splice boundary
(`sanitize_output_counterexample`). -/
theorem sanitize_output_decomposition (runfiles_dir cwd out : PyStr) (markerRequested : Bool)
    (returncode : Int) (hrd : runfiles_dir ≠ []) (hcwd : cwd ≠ []) (hrc : returncode ≠ 0) :
    ∃ segs1 segs2 : List PyStr,
      out = joinWith runfiles_dir segs1 ∧ (∀ t ∈ segs1, ¬ runfiles_dir <:+: t) ∧
      joinWith (str "//") segs1 = joinWith cwd segs2 ∧ (∀ t ∈ segs2, ¬ cwd <:+: t) ∧
      (main_after_subprocess (some runfiles_dir) cwd markerRequested returncode out).stderrOut =
        some (joinWith (str "/") segs2) := by
  obtain ⟨z1, zs1, e1, f1, r1⟩ := pyReplace_decomposition runfiles_dir (str "//") out hrd
  obtain ⟨z2, zs2, e2, f2, r2⟩ :=
    pyReplace_decomposition cwd (str "/") (pyReplace out runfiles_dir (str "//")) hcwd
  refine ⟨z1 :: zs1, z2 :: zs2, e1, f1, ?_, f2, ?_⟩
  · rw [← r1]
    exact e2
  · simp only [main_after_subprocess, if_pos hrc, sanitize_output]
    rw [r2]

/-- Witness for the amended C4 at `RUNFILES_DIR = "/r"`, `cwd = "/c"`,
captured output `"/rr"`, return code 1. -/
theorem sanitize_output_decomposition_witness :
    (str "/r" ≠ ([] : PyStr)) ∧ (str "/c" ≠ ([] : PyStr)) ∧ ((1 : Int) ≠ 0) ∧
    (∃ segs1 segs2 : List PyStr,
      str "/rr" = joinWith (str "/r") segs1 ∧ (∀ t ∈ segs1, ¬ str "/r" <:+: t) ∧
      joinWith (str "//") segs1 = joinWith (str "/c") segs2 ∧
      (∀ t ∈ segs2, ¬ str "/c" <:+: t) ∧
      (main_after_subprocess (some (str "/r")) (str "/c") false 1 (str "/rr")).stderrOut =
        some (joinWith (str "/") segs2)) :=
  ⟨by decide, by decide, by decide,
   sanitize_output_decomposition (str "/r") (str "/c") (str "/rr") false 1
     (by decide) (by decide) (by decide)⟩

/-- Counterexample to C4 as stated: with `RUNFILES_DIR = "/r"`, working
directory `"/c"` and captured subprocess output `"/rr"`, the subprocess
fails with code 1 and the relayed output is `"//r"`, which still contains
the `RUNFILES_DIR` value `"/r"` (the occurrence is recreated across the
splice boundary of the first replacement). -/
theorem sanitize_output_counterexample :
    (main_after_subprocess (some (str "/r")) (str "/c") false 1 (str "/rr")).stderrOut =
      some (str "//r") ∧
    str "/r" <:+: str "//r" := by
  constructor
  · decide
  · decide
